import Mathlib

/-!
Shallow embedding of the build-helper utilities:
  src/dev/build/util.py        (flatten, StopError)
  src/utilities/build/util.py  (flatten)
  src/dev/build/vcs.py         (revision_id, check_submodules)
Python sequences of heterogeneous values are modelled by lists of `PyObj`;
raising an exception is modelled by returning `none` (for a TypeError in
flatten) or by an explicit outcome constructor (for StopError).
-/

/-- A Python value, as far as these utilities inspect one: an integer,
a string, or a list.  Integers are not iterable; strings and lists are. -/
inductive PyObj : Type
  | intV : Int → PyObj
  | strV : List Char → PyObj
  | listV : List PyObj → PyObj

/-- The Python test `type(x) == list`. -/
def PyObj.isList : PyObj → Bool
  | .listV _ => true
  | _ => false

/-- Iterating a Python value: a list yields its elements, a string yields
its characters as one-character strings, and an integer is not iterable,
which raises a TypeError (modelled as `none`). -/
def iterElems : PyObj → Option (List PyObj)
  | .listV xs => some xs
  | .strV s => some (s.map fun c => PyObj.strV [c])
  | .intV _ => none

/-- `list(itertools.chain.from_iterable(l))`: concatenate the iterations of
the elements of `l`; a non-iterable element raises a TypeError (`none`). -/
def chainFromIterable : List PyObj → Option (List PyObj)
  | [] => some []
  | x :: rest =>
    match iterElems x, chainFromIterable rest with
    | some ys, some zs => some (ys ++ zs)
    | _, _ => none

namespace dev

/-- `flatten` from src/dev/build/util.py, lines 6-12:
if `len(l) == 0 or type(l[0]) != list`, return `l` unchanged, else return
`list(itertools.chain.from_iterable(l))`. -/
def flatten (l : List PyObj) : Option (List PyObj) :=
  match l with
  | [] => some []
  | x :: xs =>
    if x.isList then chainFromIterable (x :: xs) else some (x :: xs)

end dev

namespace utilities

/-- `flatten` from src/utilities/build/util.py, lines 2-8: the same text as
the dev copy. -/
def flatten (l : List PyObj) : Option (List PyObj) :=
  match l with
  | [] => some []
  | x :: xs =>
    if x.isList then chainFromIterable (x :: xs) else some (x :: xs)

end utilities

/-- Outcome of a call to `StopError`.  `returned` models the SCons
`Return()` call, which silently aborts the current configuration pass;
`raised msg` models `raise SCons.Errors.StopError(str)` carrying `msg`. -/
inductive StopOutcome : Type
  | returned : StopOutcome
  | raised : List Char → StopOutcome

/-- `StopError` from src/dev/build/util.py, lines 15-20.  The ambient SCons
`GetOption(help)` flag is passed in as `helpOption`. -/
def StopError (helpOption : Bool) (str : List Char) : StopOutcome :=
  if helpOption then StopOutcome.returned else StopOutcome.raised str

/-- The whitespace characters stripped by the Python `str.strip()`
method (ASCII range). -/
def isPySpace (c : Char) : Bool :=
  c == ' ' || c == '\t' || c == '\n' || c == '\r' || c == '\x0b' || c == '\x0c'

/-- The Python `str.strip()` method: remove leading and trailing
whitespace. -/
def pyStrip (s : List Char) : List Char :=
  (((s.dropWhile isPySpace).reverse).dropWhile isPySpace).reverse

/-- `revision_id` from src/dev/build/vcs.py, lines 2-8.  The subprocess
running `git rev-parse --short HEAD` is modelled by its exit status
`returncode` and its standard output `stdout`; the function strips the
output and returns `none` when the exit status is non-zero. -/
def revision_id (returncode : Int) (stdout : List Char) : Option (List Char) :=
  let revision := pyStrip stdout
  if returncode ≠ 0 then none else some revision

/-- The Python `str.split(sep)` method for a one-character separator:
keeps empty segments, and splitting the empty string yields one empty
segment. -/
def pySplit (sep : Char) : List Char → List (List Char)
  | [] => [[]]
  | c :: rest =>
    if c = sep then [] :: pySplit sep rest
    else
      match pySplit sep rest with
      | [] => [[c]]
      | l :: ls => (c :: l) :: ls

/-- The loop test `len(module) and module[0] != ' '` in `check_submodules`:
true exactly when the line is non-empty and starts with a non-space
character. -/
def moduleFlags (module : List Char) : Bool :=
  match module with
  | [] => false
  | c :: _ => c != ' '

/-- The `for module in modules` loop of `check_submodules`: return false at
the first flagged line, true when no line is flagged. -/
def scanModules : List (List Char) → Bool
  | [] => true
  | module :: rest =>
    if moduleFlags module then false else scanModules rest

/-- `check_submodules` from src/dev/build/vcs.py, lines 11-23.  The
subprocess running `git submodule status` is modelled by `outcome`:
`none` when an exception is raised inside the `try` block (for example the
git executable is unavailable), in which case the bare `except` returns
true; `some stdout` when the command ran and produced `stdout`, which is
split on newlines and scanned (the exit status is never consulted). -/
def check_submodules (outcome : Option (List Char)) : Bool :=
  match outcome with
  | none => true
  | some stdout => scanModules (pySplit '\n' stdout)

/-! Helper lemmas shared by the claim theorems. -/

lemma chain_map_listV (ls : List (List PyObj)) :
    chainFromIterable (ls.map PyObj.listV) = some ls.flatten := by
  induction ls with
  | nil => rfl
  | cons a t ih => simp [chainFromIterable, iterElems, ih]

lemma flatten_map_listV (ls : List (List PyObj)) :
    dev.flatten (ls.map PyObj.listV) = some ls.flatten := by
  cases ls with
  | nil => rfl
  | cons a t =>
    have h := chain_map_listV (a :: t)
    simpa [dev.flatten, PyObj.isList] using h

lemma chain_eq_none_iff (l : List PyObj) :
    chainFromIterable l = none ↔ ∃ y ∈ l, iterElems y = none := by
  induction l with
  | nil => simp [chainFromIterable]
  | cons x rest ih =>
    cases hx : iterElems x with
    | none =>
      cases hr : chainFromIterable rest with
      | none =>
        simp only [chainFromIterable, hx, hr]
        exact iff_of_true (by simp) ⟨x, List.mem_cons_self x rest, hx⟩
      | some zs =>
        simp only [chainFromIterable, hx, hr]
        exact iff_of_true (by simp) ⟨x, List.mem_cons_self x rest, hx⟩
    | some ys =>
      cases hr : chainFromIterable rest with
      | none =>
        simp only [chainFromIterable, hx, hr]
        obtain ⟨y, hy, hyn⟩ := ih.mp hr
        exact iff_of_true (by simp) ⟨y, List.mem_cons_of_mem x hy, hyn⟩
      | some zs =>
        simp only [chainFromIterable, hx, hr]
        refine iff_of_false (by simp) ?_
        rintro ⟨y, hy, hyn⟩
        rcases List.mem_cons.mp hy with h1 | h2
        · rw [h1] at hyn; rw [hyn] at hx; exact Option.noConfusion hx
        · rw [ih.mpr ⟨y, h2, hyn⟩] at hr; exact Option.noConfusion hr

lemma head?_dropWhile_false {α : Type} (p : α → Bool) (l : List α) (c : α)
    (h : (l.dropWhile p).head? = some c) : p c = false := by
  induction l with
  | nil => simp [List.dropWhile] at h
  | cons a t ih =>
    by_cases hp : p a
    · rw [List.dropWhile_cons_of_pos hp] at h; exact ih h
    · rw [List.dropWhile_cons_of_neg hp] at h
      simp only [List.head?_cons, Option.some_inj] at h
      rw [← h]; exact Bool.eq_false_iff.mpr hp

lemma getLast?_dropWhile {α : Type} (p : α → Bool) (l : List α)
    (h : l.dropWhile p ≠ []) : (l.dropWhile p).getLast? = l.getLast? := by
  induction l with
  | nil => simp [List.dropWhile] at h
  | cons a t ih =>
    by_cases hp : p a
    · rw [List.dropWhile_cons_of_pos hp] at h ⊢
      have ht : t ≠ [] := by
        intro he; rw [he] at h; simp [List.dropWhile] at h
      rw [ih h]
      cases t with
      | nil => exact absurd rfl ht
      | cons b u => rw [List.getLast?_cons_cons]
    · rw [List.dropWhile_cons_of_neg hp]

lemma pyStrip_decomp (s : List Char) :
    ∃ pre post, s = pre ++ pyStrip s ++ post ∧
      (∀ c ∈ pre, isPySpace c = true) ∧ (∀ c ∈ post, isPySpace c = true) := by
  refine ⟨s.takeWhile isPySpace,
    ((s.dropWhile isPySpace).reverse.takeWhile isPySpace).reverse, ?_, ?_, ?_⟩
  · have h1 : s = s.takeWhile isPySpace ++ s.dropWhile isPySpace :=
      (List.takeWhile_append_dropWhile isPySpace s).symm
    have h2 : (s.dropWhile isPySpace).reverse =
        (s.dropWhile isPySpace).reverse.takeWhile isPySpace ++
          (s.dropWhile isPySpace).reverse.dropWhile isPySpace :=
      (List.takeWhile_append_dropWhile isPySpace (s.dropWhile isPySpace).reverse).symm
    have h3 : s.dropWhile isPySpace =
        ((s.dropWhile isPySpace).reverse.dropWhile isPySpace).reverse ++
          ((s.dropWhile isPySpace).reverse.takeWhile isPySpace).reverse := by
      have h4 := congrArg List.reverse h2
      rw [List.reverse_reverse] at h4
      rw [List.reverse_append] at h4
      exact h4
    conv_lhs => rw [h1, h3]
    rw [List.append_assoc]
    rfl
  · intro c hc; exact List.mem_takeWhile_imp hc
  · intro c hc
    rw [List.mem_reverse] at hc
    exact List.mem_takeWhile_imp hc

lemma pyStrip_head_not_space (s : List Char) (c : Char)
    (h : (pyStrip s).head? = some c) : isPySpace c = false := by
  unfold pyStrip at h
  rw [List.head?_reverse] at h
  have hd : (s.dropWhile isPySpace).reverse.dropWhile isPySpace ≠ [] := by
    intro he; rw [he] at h; simp at h
  rw [getLast?_dropWhile _ _ hd, List.getLast?_reverse] at h
  exact head?_dropWhile_false _ _ _ h

lemma pyStrip_getLast_not_space (s : List Char) (c : Char)
    (h : (pyStrip s).getLast? = some c) : isPySpace c = false := by
  unfold pyStrip at h
  rw [List.getLast?_reverse] at h
  exact head?_dropWhile_false _ _ _ h

lemma moduleFlags_eq_true_iff (m : List Char) :
    moduleFlags m = true ↔ m ≠ [] ∧ m.head? ≠ some ' ' := by
  cases m with
  | nil => simp [moduleFlags]
  | cons c t => simp [moduleFlags]

lemma scanModules_eq_false_iff (ms : List (List Char)) :
    scanModules ms = false ↔ ∃ m ∈ ms, m ≠ [] ∧ m.head? ≠ some ' ' := by
  induction ms with
  | nil => simp [scanModules]
  | cons m rest ih =>
    by_cases hm : moduleFlags m = true
    · simp only [scanModules, hm, if_true]
      exact iff_of_true (by simp) ⟨m, List.mem_cons_self m rest,
        (moduleFlags_eq_true_iff m).mp hm⟩
    · have hm' : moduleFlags m = false := by
        cases hb : moduleFlags m with
        | false => rfl
        | true => exact absurd hb hm
      simp only [scanModules, hm', if_false, Bool.false_eq_true]
      rw [ih]
      constructor
      · rintro ⟨y, hy, hp⟩
        exact ⟨y, List.mem_cons_of_mem m hy, hp⟩
      · rintro ⟨y, hy, hp⟩
        rcases List.mem_cons.mp hy with h1 | h2
        · rw [← h1] at hm
          exact absurd ((moduleFlags_eq_true_iff y).mpr hp) hm
        · exact ⟨y, h2, hp⟩

lemma scanModules_of_all_nil (ms : List (List Char))
    (h : ∀ m ∈ ms, m = ([] : List Char)) : scanModules ms = true := by
  induction ms with
  | nil => rfl
  | cons m rest ih =>
    have hm : m = [] := h m (List.mem_cons_self m rest)
    have hflag : moduleFlags m = false := by rw [hm]; rfl
    simp only [scanModules, hflag, if_false, Bool.false_eq_true]
    exact ih fun y hy => h y (List.mem_cons_of_mem m hy)

/-! The claim theorems.  Each theorem settles one claim of the
specification against the embedded code. -/

/-- C1: For every list l whose first element is a list and all of whose
elements are lists, flatten(l) returns the single list obtained by
concatenating the first-level element lists of l in order. -/
theorem flatten_concat_spec (ls : List (List PyObj)) (_hne : ls ≠ []) :
    dev.flatten (ls.map PyObj.listV) = some ls.flatten :=
  flatten_map_listV ls

/-- C1 witness: flatten([[1,2],[3]]) returns [1,2,3]. -/
theorem flatten_concat_spec_witness :
    dev.flatten [PyObj.listV [PyObj.intV 1, PyObj.intV 2], PyObj.listV [PyObj.intV 3]]
      = some [PyObj.intV 1, PyObj.intV 2, PyObj.intV 3] :=
  flatten_concat_spec [[PyObj.intV 1, PyObj.intV 2], [PyObj.intV 3]]
    (List.cons_ne_nil _ _)

/-- C2: For every sequence l that is empty or whose first element is not a
list, flatten(l) returns the input unchanged. -/
theorem flatten_unchanged_spec (l : List PyObj)
    (h : l = [] ∨ ∃ x rest, l = x :: rest ∧ PyObj.isList x = false) :
    dev.flatten l = some l := by
  rcases h with h | ⟨x, rest, he, hx⟩
  · rw [h]; rfl
  · rw [he]; simp [dev.flatten, hx]

/-- C2 witness: flatten([]) returns [] and flatten([1,2,3]) returns
[1,2,3] unchanged. -/
theorem flatten_unchanged_spec_witness :
    dev.flatten [] = some [] ∧
      dev.flatten [PyObj.intV 1, PyObj.intV 2, PyObj.intV 3]
        = some [PyObj.intV 1, PyObj.intV 2, PyObj.intV 3] :=
  ⟨flatten_unchanged_spec [] (Or.inl rfl),
    flatten_unchanged_spec [PyObj.intV 1, PyObj.intV 2, PyObj.intV 3]
      (Or.inr ⟨PyObj.intV 1, [PyObj.intV 2, PyObj.intV 3], rfl, rfl⟩)⟩

/-- C3: flatten never recurses more than one level: on a list of lists
whose inner elements are themselves lists, the elements of the result are
exactly the inner elements unchanged, not flattened further. -/
theorem flatten_one_level_spec (ls : List (List PyObj))
    (_h : ∀ x ∈ ls.flatten, PyObj.isList x = true) :
    dev.flatten (ls.map PyObj.listV) = some ls.flatten :=
  flatten_map_listV ls

/-- C3 witness: flatten([[[1]],[[2]]]) returns [[1],[2]], not [1,2]. -/
theorem flatten_one_level_spec_witness :
    dev.flatten [PyObj.listV [PyObj.listV [PyObj.intV 1]],
        PyObj.listV [PyObj.listV [PyObj.intV 2]]]
      = some [PyObj.listV [PyObj.intV 1], PyObj.listV [PyObj.intV 2]] :=
  flatten_one_level_spec [[PyObj.listV [PyObj.intV 1]], [PyObj.listV [PyObj.intV 2]]]
    (by decide)

/-- C4: check_submodules() returns false exactly when some non-empty
reported status line does not begin with a space character, true
otherwise; it returns true when the command raises (git unavailable), and
true when a failed command produces no output. -/
theorem check_submodules_spec :
    check_submodules none = true ∧
    check_submodules (some []) = true ∧
    ∀ stdout : List Char,
      check_submodules (some stdout) = false ↔
        ∃ module ∈ pySplit '\n' stdout, module ≠ [] ∧ module.head? ≠ some ' ' :=
  ⟨rfl, rfl, fun stdout => scanModules_eq_false_iff (pySplit '\n' stdout)⟩

/-- C5: revision_id() returns the trimmed output string of the version
control command when the exit status is zero (the output splits as
whitespace, the returned string, whitespace, and the returned string
neither starts nor ends with whitespace), and returns none when the exit
status is non-zero. -/
theorem revision_id_spec (returncode : Int) (stdout : List Char) :
    (returncode ≠ 0 → revision_id returncode stdout = none) ∧
    (returncode = 0 →
      revision_id returncode stdout = some (pyStrip stdout) ∧
      (∃ pre post, stdout = pre ++ pyStrip stdout ++ post ∧
        (∀ c ∈ pre, isPySpace c = true) ∧ (∀ c ∈ post, isPySpace c = true)) ∧
      (∀ c, (pyStrip stdout).head? = some c → isPySpace c = false) ∧
      (∀ c, (pyStrip stdout).getLast? = some c → isPySpace c = false)) := by
  constructor
  · intro h; simp [revision_id, h]
  · intro h
    refine ⟨by simp [revision_id, h], pyStrip_decomp stdout,
      fun c hc => pyStrip_head_not_space stdout c hc,
      fun c hc => pyStrip_getLast_not_space stdout c hc⟩

/-- C6: When the help-mode flag is inactive, StopError(message) raises a
fatal configuration-stop condition carrying exactly the given message. -/
theorem stop_error_inactive_spec (message : List Char) :
    StopError false message = StopOutcome.raised message ∧
    StopError false message ≠ StopOutcome.returned :=
  ⟨rfl, by simp [StopError]⟩

/-- C7: When the help-mode flag is active, StopError(message) aborts the
current configuration pass silently and raises no error. -/
theorem stop_error_active_spec (message : List Char) :
    StopError true message = StopOutcome.returned ∧
    ∀ other : List Char, StopError true message ≠ StopOutcome.raised other :=
  ⟨rfl, fun other => by simp [StopError]⟩

/-- C8: The two definitions of flatten, in src/dev/build/util.py and
src/utilities/build/util.py, compute the same function on every input
sequence. -/
theorem flatten_agree_spec (l : List PyObj) :
    dev.flatten l = utilities.flatten l := rfl

/-- C9: check_submodules() ignores empty status lines: output whose split
consists only of empty lines (such as the empty string) yields true, even
though an empty line does not begin with a space character. -/
theorem check_submodules_empty_lines_spec (stdout : List Char)
    (h : ∀ module ∈ pySplit '\n' stdout, module = ([] : List Char)) :
    check_submodules (some stdout) = true :=
  scanModules_of_all_nil (pySplit '\n' stdout) h

/-- C9 witness: the empty output splits into one empty line and yields
true. -/
theorem check_submodules_empty_lines_spec_witness :
    check_submodules (some ([] : List Char)) = true :=
  check_submodules_empty_lines_spec [] (by decide)

/-- C10: When the first element of the input is a list, flatten raises a
TypeError (modelled as none) exactly when some element of the input is not
iterable; in particular the error branch is unreachable when every element
is iterable. -/
theorem flatten_typeerror_spec (x : PyObj) (rest : List PyObj)
    (hx : PyObj.isList x = true) :
    dev.flatten (x :: rest) = none ↔ ∃ y ∈ x :: rest, iterElems y = none := by
  rw [show dev.flatten (x :: rest) = chainFromIterable (x :: rest) by
    simp [dev.flatten, hx]]
  exact chain_eq_none_iff (x :: rest)

/-- C10 witness: flatten([[1], 2]) raises a TypeError. -/
theorem flatten_typeerror_spec_witness :
    dev.flatten [PyObj.listV [PyObj.intV 1], PyObj.intV 2] = none :=
  (flatten_typeerror_spec (PyObj.listV [PyObj.intV 1]) [PyObj.intV 2] rfl).mpr
    ⟨PyObj.intV 2, List.mem_cons_of_mem _ (List.mem_cons_self _ _), rfl⟩
